import Mathlib

/-!
Verification development for the chatgpt2bear repository.

The repository ships a Node.js callback receiver in two variants
(`src/server.js` and the unnamed earlier variant `src/unnamed/part_000`)
and documents a driver/reconciler protocol over an append-only JSONL
ledger.  The receiver handlers are embedded below as pure functions from
the request data (query parameters and the receipt-time clock readings)
to the file operations they perform and the HTTP response they return.
The reconciler (`computeState`) and the driver state machine live in the
Python script that is not part of the provided sources, so they are
modelled from the specification text.
-/

set_option maxHeartbeats 1000000

/-! ## Spec-level ledger model (reconciler and driver) -/

/-- Modelled from the spec: the kinds a ledger entry may carry
(`note_created`, `exists_confirmed`, `exists_denied`). -/
inductive EntryKind where
  | note_created
  | exists_confirmed
  | exists_denied
deriving DecidableEq

/-- Modelled from the spec: a ledger entry carries at minimum a
conversation identifier, a kind and a timestamp. -/
structure LedgerEntry where
  conversation_id : String
  kind : EntryKind
  timestamp : Nat
deriving DecidableEq

/-- Modelled from the spec: the derived import state of a conversation. -/
inductive ImportState where
  | NeverAttempted
  | Imported
  | ImportedButMissing
  | PendingCallback
deriving DecidableEq

/-- Modelled from the spec: the state mapped from the kind of the latest
entry: `note_created` and `exists_confirmed` mean `Imported`,
`exists_denied` means `ImportedButMissing`. -/
def stateOfKind : EntryKind → ImportState
  | EntryKind.note_created => ImportState.Imported
  | EntryKind.exists_confirmed => ImportState.Imported
  | EntryKind.exists_denied => ImportState.ImportedButMissing

/-- A later entry replaces the current best exactly when its timestamp is
at least as large (last-write-wins by stream position on ties). -/
def step2 (b e : LedgerEntry) : LedgerEntry :=
  if b.timestamp ≤ e.timestamp then e else b

/-- Fold step of the latest-wins reduction over the ledger stream. -/
def laterWins (best : Option LedgerEntry) (e : LedgerEntry) : Option LedgerEntry :=
  match best with
  | none => some e
  | some b => some (step2 b e)

/-- Modelled from the spec: reduce a stream of entries, in read order, to
the entry with the maximum timestamp, preferring the entry appearing
later in read order on equal timestamps. -/
def latestEntry (l : List LedgerEntry) : Option LedgerEntry :=
  l.foldl laterWins none

/-- Modelled from the spec: `computeState` filters the entries to the
given conversation identifier, returns `NeverAttempted` when none match,
and otherwise the state mapped from the kind of the latest-wins entry. -/
def computeState (ledgerEntries : List LedgerEntry) (conversationId : String) : ImportState :=
  match latestEntry (ledgerEntries.filter (fun e => e.conversation_id == conversationId)) with
  | none => ImportState.NeverAttempted
  | some e => stateOfKind e.kind

/-- The largest timestamp occurring in a list of entries (0 for the empty
list); declarative yardstick for the latest-wins reduction. -/
def maxTimestamp (l : List LedgerEntry) : Nat :=
  l.foldl (fun m e => max m e.timestamp) 0

/-- Declarative form of the spec's selection rule: among the entries that
achieve the maximum timestamp, take the last one in read order. -/
def latestEntrySpec (l : List LedgerEntry) : Option LedgerEntry :=
  (l.filter (fun e => e.timestamp == maxTimestamp l)).getLast?

/-- Modelled from the spec: the driver's possible per-conversation actions. -/
inductive DriverAction where
  | issueCreate
  | noAction
  | skipImported
deriving DecidableEq

/-- Modelled from the spec: the ImportDriver state machine:
`NeverAttempted` and `ImportedButMissing` issue a create request,
`PendingCallback` does nothing this run, `Imported` is skipped. -/
def driverAction : ImportState → DriverAction
  | ImportState.NeverAttempted => DriverAction.issueCreate
  | ImportState.PendingCallback => DriverAction.noAction
  | ImportState.ImportedButMissing => DriverAction.issueCreate
  | ImportState.Imported => DriverAction.skipImported

/-! ## Lemmas on the latest-wins reduction -/

theorem foldl_laterWins_some (l : List LedgerEntry) (b : LedgerEntry) :
    l.foldl laterWins (some b) = some (l.foldl step2 b) := by
  induction l generalizing b with
  | nil => rfl
  | cons e es ih => simpa [laterWins] using ih (step2 b e)

theorem latestEntry_cons (e : LedgerEntry) (l : List LedgerEntry) :
    latestEntry (e :: l) = some (l.foldl step2 e) := by
  simpa [latestEntry, laterWins] using foldl_laterWins_some l e

theorem latestEntry_nil : latestEntry [] = none := rfl

theorem latestEntry_eq_none_iff (l : List LedgerEntry) :
    latestEntry l = none ↔ l = [] := by
  cases l with
  | nil => simp [latestEntry]
  | cons e es => simp [latestEntry_cons]

theorem step2_timestamp (b e : LedgerEntry) :
    (step2 b e).timestamp = max b.timestamp e.timestamp := by
  unfold step2
  split
  · exact (Nat.max_eq_right (by assumption)).symm
  · exact (Nat.max_eq_left (Nat.le_of_not_le (by assumption))).symm

theorem foldl_step2_timestamp (l : List LedgerEntry) (b : LedgerEntry) :
    (l.foldl step2 b).timestamp = l.foldl (fun m e => max m e.timestamp) b.timestamp := by
  induction l generalizing b with
  | nil => rfl
  | cons e es ih =>
      simp only [List.foldl]
      rw [ih (step2 b e), step2_timestamp]

theorem foldl_max_acc (l : List LedgerEntry) (a : Nat) :
    l.foldl (fun m e => max m e.timestamp) a = max a (maxTimestamp l) := by
  induction l generalizing a with
  | nil => simp [maxTimestamp]
  | cons e es ih =>
      simp only [List.foldl, maxTimestamp]
      rw [ih (max a e.timestamp), ih (max 0 e.timestamp)]
      rw [Nat.zero_max, Nat.max_assoc]

theorem maxTimestamp_cons (e : LedgerEntry) (l : List LedgerEntry) :
    maxTimestamp (e :: l) = max e.timestamp (maxTimestamp l) := by
  show List.foldl (fun m x => max m x.timestamp) (max 0 e.timestamp) l = _
  rw [foldl_max_acc, Nat.zero_max]

theorem maxTimestamp_append_singleton (l : List LedgerEntry) (e : LedgerEntry) :
    maxTimestamp (l ++ [e]) = max (maxTimestamp l) e.timestamp := by
  show List.foldl (fun m x => max m x.timestamp) 0 (l ++ [e]) = _
  rw [List.foldl_append]
  show max (List.foldl (fun m x => max m x.timestamp) 0 l) e.timestamp = _
  rfl

theorem latestEntry_timestamp (l : List LedgerEntry) (b : LedgerEntry)
    (h : latestEntry l = some b) : b.timestamp = maxTimestamp l := by
  cases l with
  | nil => simp [latestEntry] at h
  | cons e es =>
      rw [latestEntry_cons] at h
      cases h
      rw [foldl_step2_timestamp, foldl_max_acc, maxTimestamp_cons]

theorem le_maxTimestamp (l : List LedgerEntry) (e : LedgerEntry) (he : e ∈ l) :
    e.timestamp ≤ maxTimestamp l := by
  induction l with
  | nil => cases he
  | cons a as ih =>
      rw [maxTimestamp_cons]
      rcases List.mem_cons.1 he with h | h
      · cases h; exact Nat.le_max_left _ _
      · exact Nat.le_trans (ih h) (Nat.le_max_right _ _)

theorem maxTimestamp_le (l : List LedgerEntry) (t : Nat)
    (h : ∀ e, e ∈ l → e.timestamp ≤ t) : maxTimestamp l ≤ t := by
  induction l with
  | nil => exact Nat.zero_le t
  | cons a as ih =>
      rw [maxTimestamp_cons]
      exact Nat.max_le.mpr ⟨h a (List.mem_cons_self a as),
        ih (fun e he => h e (List.mem_cons_of_mem a he))⟩

theorem maxTimestamp_mem (l : List LedgerEntry) (hne : l ≠ []) :
    ∃ e, e ∈ l ∧ e.timestamp = maxTimestamp l := by
  induction l with
  | nil => exact absurd rfl hne
  | cons a as ih =>
      cases as with
      | nil =>
          refine ⟨a, List.mem_cons_self a [], ?_⟩
          rw [maxTimestamp_cons]
          simp [maxTimestamp]
      | cons b bs =>
          rcases ih (by simp) with ⟨e, he, hts⟩
          by_cases hc : maxTimestamp (b :: bs) ≤ a.timestamp
          · refine ⟨a, List.mem_cons_self a (b :: bs), ?_⟩
            rw [maxTimestamp_cons]
            exact (Nat.max_eq_left hc).symm
          · refine ⟨e, List.mem_cons_of_mem a he, ?_⟩
            rw [maxTimestamp_cons, hts]
            exact (Nat.max_eq_right (Nat.le_of_not_le hc)).symm

theorem latestEntry_eq_spec (l : List LedgerEntry) :
    latestEntry l = latestEntrySpec l := by
  induction l using List.reverseRecOn with
  | nil => rfl
  | append_singleton l e ih =>
      have hfold : latestEntry (l ++ [e]) = laterWins (latestEntry l) e := by
        show List.foldl laterWins none (l ++ [e]) = _
        rw [List.foldl_append]
        rfl
      rcases hLE : latestEntry l with _ | b
      · have hl : l = [] := (latestEntry_eq_none_iff l).1 hLE
        subst hl
        simp [latestEntrySpec, latestEntry, laterWins, maxTimestamp_cons, maxTimestamp]
      · have hb : b.timestamp = maxTimestamp l := latestEntry_timestamp l b hLE
        rw [hfold, hLE]
        by_cases hle : b.timestamp ≤ e.timestamp
        · have hM : maxTimestamp (l ++ [e]) = e.timestamp := by
            rw [maxTimestamp_append_singleton, ← hb]
            exact Nat.max_eq_right hle
          unfold latestEntrySpec
          rw [hM, List.filter_append]
          have : List.filter (fun x => x.timestamp == e.timestamp) [e] = [e] := by
            simp [List.filter]
          rw [this, List.getLast?_concat]
          simp [laterWins, step2, hle]
        · have hlt : e.timestamp < b.timestamp := Nat.lt_of_not_le hle
          have hM : maxTimestamp (l ++ [e]) = maxTimestamp l := by
            rw [maxTimestamp_append_singleton, ← hb]
            exact Nat.max_eq_left (Nat.le_of_lt hlt)
          have h2 : (e.timestamp == maxTimestamp l) = false := by
            rw [← hb]
            exact beq_eq_false_iff_ne.mpr (Nat.ne_of_lt hlt)
          have hfil : List.filter (fun x => x.timestamp == maxTimestamp (l ++ [e])) (l ++ [e])
              = List.filter (fun x => x.timestamp == maxTimestamp l) l := by
            rw [hM, List.filter_append]
            simp [List.filter, h2]
          show laterWins (some b) e = latestEntrySpec (l ++ [e])
          unfold latestEntrySpec
          rw [hfil]
          have ih2 : latestEntry l
              = (List.filter (fun x => x.timestamp == maxTimestamp l) l).getLast? := ih
          rw [← ih2, hLE]
          simp [laterWins, step2, hle]

/-! ## Receiver embedding (src/server.js and src/unnamed/part_000)

Each Express handler is a pure function of the query parameters and of
the clock readings taken at receipt time (`Date.now()` as a natural
number of milliseconds, `new Date().toISOString()` as a string).  Its
observable behaviour is the list of file operations it performs and the
HTTP response body it sends.  Absent query parameters are `none`
(`undefined` in JavaScript), and `JSON.stringify` omits object
properties whose value is `undefined`. -/

/-- A JSON value as produced by the handlers: a string, a natural
number, or a boolean. -/
inductive JsonValue where
  | str (s : String)
  | num (n : Nat)
  | boolean (b : Bool)
deriving DecidableEq

/-- A JSON object in property-insertion order, as `JSON.stringify`
serializes it. -/
abbrev JsonRecord := List (String × JsonValue)

/-- Hexadecimal digit characters, used by the `\u00XX` escapes of
`JSON.stringify` and for decimal digits. -/
def hexDigitChar : Nat → Char
  | 0 => '0'
  | 1 => '1'
  | 2 => '2'
  | 3 => '3'
  | 4 => '4'
  | 5 => '5'
  | 6 => '6'
  | 7 => '7'
  | 8 => '8'
  | 9 => '9'
  | 10 => 'a'
  | 11 => 'b'
  | 12 => 'c'
  | 13 => 'd'
  | 14 => 'e'
  | 15 => 'f'
  | _ => '0'

/-- Decimal digits of a natural number, most significant first, as
`JSON.stringify` prints an integral JavaScript number. -/
def natToDigits (n : Nat) : List Char :=
  if n < 10 then [hexDigitChar n]
  else natToDigits (n / 10) ++ [hexDigitChar (n % 10)]
decreasing_by exact Nat.div_lt_self (by omega) (by omega)

/-- The escape `JSON.stringify` applies to one character inside a JSON
string: quote and backslash are backslash-escaped, the named control
characters use their short escapes, the remaining control characters use
`\u00XX`, and every other character stands for itself. -/
def escChar (c : Char) : List Char :=
  if c = '"' then ['\\', '"']
  else if c = '\\' then ['\\', '\\']
  else if c = '\n' then ['\\', 'n']
  else if c = '\r' then ['\\', 'r']
  else if c = '\t' then ['\\', 't']
  else if c.toNat = 8 then ['\\', 'b']
  else if c.toNat = 12 then ['\\', 'f']
  else if c.toNat < 32 then ['\\', 'u', '0', '0', hexDigitChar (c.toNat / 16), hexDigitChar (c.toNat % 16)]
  else [c]

/-- The characters of the JSON serialization of a string body. -/
def escString (s : String) : List Char :=
  (s.data.map escChar).flatten

/-- A JSON string literal: the escaped body wrapped in quotes. -/
def quoteChars (s : String) : List Char :=
  '"' :: escString s ++ ['"']

/-- The characters of the JSON serialization of a value. -/
def valueChars : JsonValue → List Char
  | JsonValue.str s => quoteChars s
  | JsonValue.num n => natToDigits n
  | JsonValue.boolean true => ['t', 'r', 'u', 'e']
  | JsonValue.boolean false => ['f', 'a', 'l', 's', 'e']

/-- One `"key":value` pair as `JSON.stringify` prints it (no spaces). -/
def fieldChars (f : String × JsonValue) : List Char :=
  quoteChars f.1 ++ ':' :: valueChars f.2

/-- The comma-separated body of a serialized JSON object. -/
def bodyChars : JsonRecord → List Char
  | [] => []
  | [f] => fieldChars f
  | f :: g :: rest => fieldChars f ++ ',' :: bodyChars (g :: rest)

/-- `JSON.stringify` of an object: the brace-wrapped comma-separated
property list, properties in insertion order. -/
def stringify (r : JsonRecord) : String :=
  String.mk ('\x7b' :: bodyChars r ++ ['\x7d'])

/-- The query parameters a receiver endpoint may read: `identifier`,
`title`, `conversation_id`, `characters`; `none` models an absent
parameter (`undefined`). -/
structure Query where
  identifier : Option String
  title : Option String
  conversation_id : Option String
  characters : Option String
deriving DecidableEq

/-- An object property holding a query parameter: omitted by
`JSON.stringify` when the parameter is `undefined`. -/
def optField (key : String) : Option String → JsonRecord
  | some v => [(key, JsonValue.str v)]
  | none => []

/-- The object the `/success` handler builds:
`bear_id`, `title`, `conversation_id`, `bear_import_timestamp`,
`bear_import_ISO8601_date`, `note_characters`, in that order
(src/server.js lines 12-19, identical in src/unnamed/part_000). -/
def successData (q : Query) (now : Nat) (iso : String) : JsonRecord :=
  optField "bear_id" q.identifier ++
  optField "title" q.title ++
  optField "conversation_id" q.conversation_id ++
  [("bear_import_timestamp", JsonValue.num now),
   ("bear_import_ISO8601_date", JsonValue.str iso)] ++
  optField "note_characters" q.characters

/-- The object the `/bear-exists` handler builds:
`bear_id`, `exists_in_bear: true` (src/server.js lines 27-31). -/
def existsData (q : Query) : JsonRecord :=
  optField "bear_id" q.identifier ++ [("exists_in_bear", JsonValue.boolean true)]

/-- The object the `/bear-missing` handler builds:
`bear_id`, `conversation_id`, `exists_in_bear: false`
(src/server.js lines 46-50). -/
def missingData (q : Query) : JsonRecord :=
  optField "bear_id" q.identifier ++
  optField "conversation_id" q.conversation_id ++
  [("exists_in_bear", JsonValue.boolean false)]

/-- A file-system operation; the handlers only ever produce
`append` (they call `fs.appendFileSync` with flag `a`), but truncating
writes and removals exist in the modelled effect language so that their
absence is a statement about the code. -/
inductive FileOp where
  | append (file : String) (payload : String)
  | truncateWrite (file : String) (payload : String)
  | remove (file : String)
deriving DecidableEq

/-- What a handler does: the file operations it performs, in order, and
the HTTP response body it sends. -/
structure HandlerResult where
  ops : List FileOp
  response : String
deriving DecidableEq

/-- The page-closing acknowledgment every handler sends. -/
def closeScript : String := "<script>window.close();</script>"

/-- The `/success` handler of src/server.js: append the serialized
record plus a newline to `bear_import_log.jsonl`, then send the
page-closing script. -/
def serverJsSuccessHandler (q : Query) (now : Nat) (iso : String) : HandlerResult :=
  { ops := [FileOp.append "bear_import_log.jsonl" (stringify (successData q now iso) ++ "\n")],
    response := closeScript }

/-- The `/bear-exists` handler of src/server.js. -/
def serverJsBearExistsHandler (q : Query) : HandlerResult :=
  { ops := [FileOp.append "conversation_check.jsonl" (stringify (existsData q) ++ "\n")],
    response := closeScript }

/-- The `/bear-missing` handler of src/server.js (its `console.log` goes
to stdout and is not a file effect). -/
def serverJsBearMissingHandler (q : Query) : HandlerResult :=
  { ops := [FileOp.append "conversation_check.jsonl" (stringify (missingData q) ++ "\n")],
    response := closeScript }

/-- The object the `/success` handler of src/unnamed/part_000 builds:
textually the same construction as in src/server.js. -/
def part000SuccessData (q : Query) (now : Nat) (iso : String) : JsonRecord :=
  optField "bear_id" q.identifier ++
  optField "title" q.title ++
  optField "conversation_id" q.conversation_id ++
  [("bear_import_timestamp", JsonValue.num now),
   ("bear_import_ISO8601_date", JsonValue.str iso)] ++
  optField "note_characters" q.characters

/-- The `/success` handler of src/unnamed/part_000: same record, same
response, but the append targets `conversation_import.jsonl`. -/
def part000SuccessHandler (q : Query) (now : Nat) (iso : String) : HandlerResult :=
  { ops := [FileOp.append "conversation_import.jsonl" (stringify (part000SuccessData q now iso) ++ "\n")],
    response := closeScript }

/-- An inbound request to one of the receiver endpoints, carrying the
query parameters and the receipt-time clock readings. -/
inductive Request where
  | success (q : Query) (now : Nat) (iso : String)
  | bearExists (q : Query)
  | bearMissing (q : Query)
  | successV0 (q : Query) (now : Nat) (iso : String)
deriving DecidableEq

/-- Route a request to its handler (`successV0` is the src/unnamed
variant's endpoint). -/
def handleRequest : Request → HandlerResult
  | Request.success q now iso => serverJsSuccessHandler q now iso
  | Request.bearExists q => serverJsBearExistsHandler q
  | Request.bearMissing q => serverJsBearMissingHandler q
  | Request.successV0 q now iso => part000SuccessHandler q now iso

/-- The state of durable storage: each file name maps to its current
contents. -/
abbrev FileStore := String → String

/-- Semantics of one file operation. -/
def applyOp (fs : FileStore) : FileOp → FileStore
  | FileOp.append file p => fun name => if name = file then fs name ++ p else fs name
  | FileOp.truncateWrite file p => fun name => if name = file then p else fs name
  | FileOp.remove file => fun name => if name = file then "" else fs name

/-- Semantics of a sequence of file operations. -/
def applyOps (fs : FileStore) (ops : List FileOp) : FileStore :=
  ops.foldl applyOp fs

/-- Process a sequence of requests against durable storage; the handlers
themselves take no state, so each step only applies the operations of
the current request. -/
def runRequests (fs : FileStore) (rs : List Request) : FileStore :=
  rs.foldl (fun s r => applyOps s (handleRequest r).ops) fs

/-- The text a single file operation contributes to a given file. -/
def opDelta (name : String) : FileOp → String
  | FileOp.append file p => if name = file then p else ""
  | FileOp.truncateWrite _ _ => ""
  | FileOp.remove _ => ""

/-- The text a request's handler appends to a given file, independent of
any prior request. -/
def requestDelta (r : Request) (name : String) : String :=
  ((handleRequest r).ops.map (opDelta name)).foldl (fun a b => a ++ b) ""

/-- Look up a property of a serialized object by key. -/
def lookupField (r : JsonRecord) (key : String) : Option JsonValue :=
  (r.find? (fun f => f.1 == key)).map Prod.snd

/-- The spec-level kind of a record the receiver appends: the
`exists_in_bear` flag distinguishes `exists_confirmed` from
`exists_denied`, and a record without the flag (a success-callback
record) is a `note_created` fact. -/
def recordKind (r : JsonRecord) : EntryKind :=
  match lookupField r "exists_in_bear" with
  | some (JsonValue.boolean true) => EntryKind.exists_confirmed
  | some (JsonValue.boolean false) => EntryKind.exists_denied
  | _ => EntryKind.note_created

/-! ## The serialized payload contains no newline -/

theorem hexDigitChar_ne_newline (n : Nat) (h : n < 16) : hexDigitChar n ≠ '\n' := by
  interval_cases n <;> decide

theorem newline_not_mem_natToDigits (n : Nat) : '\n' ∉ natToDigits n := by
  induction n using Nat.strong_induction_on with
  | _ n ih =>
      unfold natToDigits
      by_cases h : n < 10
      · simp only [if_pos h, List.mem_singleton]
        exact fun hc => hexDigitChar_ne_newline n (by omega) hc.symm
      · simp only [if_neg h, List.mem_append, List.mem_singleton]
        intro hc
        rcases hc with hc | hc
        · exact ih (n / 10) (Nat.div_lt_self (by omega) (by omega)) hc
        · exact hexDigitChar_ne_newline (n % 10) (by omega) hc.symm

theorem newline_not_mem_escChar (c : Char) : '\n' ∉ escChar c := by
  unfold escChar
  split_ifs with h1 h2 h3 h4 h5 h6 h7 h8
  · decide
  · decide
  · decide
  · decide
  · decide
  · decide
  · decide
  · have d1 := hexDigitChar_ne_newline (c.toNat / 16) (by omega)
    have d2 := hexDigitChar_ne_newline (c.toNat % 16) (by omega)
    intro hc
    simp only [List.mem_cons, List.not_mem_nil, or_false] at hc
    rcases hc with h | h | h | h | h | h
    · exact absurd h (by decide)
    · exact absurd h (by decide)
    · exact absurd h (by decide)
    · exact absurd h (by decide)
    · exact d1 h.symm
    · exact d2 h.symm
  · simp only [List.mem_singleton]
    exact fun hc => h3 hc.symm

theorem newline_not_mem_escString (s : String) : '\n' ∉ escString s := by
  unfold escString
  intro hc
  rcases List.mem_flatten.1 hc with ⟨l, hl, hcl⟩
  rcases List.mem_map.1 hl with ⟨c, _, rfl⟩
  exact newline_not_mem_escChar c hcl

theorem newline_not_mem_quoteChars (s : String) : '\n' ∉ quoteChars s := by
  unfold quoteChars
  intro hc
  rcases List.mem_cons.1 hc with h | h
  · exact absurd h (by decide)
  · rcases List.mem_append.1 h with h | h
    · exact newline_not_mem_escString s h
    · exact absurd (List.mem_singleton.1 h) (by decide)

theorem newline_not_mem_valueChars (v : JsonValue) : '\n' ∉ valueChars v := by
  cases v with
  | str s => exact newline_not_mem_quoteChars s
  | num n => exact newline_not_mem_natToDigits n
  | boolean b => cases b <;> decide

theorem newline_not_mem_fieldChars (f : String × JsonValue) : '\n' ∉ fieldChars f := by
  unfold fieldChars
  intro hc
  rcases List.mem_append.1 hc with h | h
  · exact newline_not_mem_quoteChars f.1 h
  · rcases List.mem_cons.1 h with h | h
    · exact absurd h (by decide)
    · exact newline_not_mem_valueChars f.2 h

theorem newline_not_mem_bodyChars (r : JsonRecord) : '\n' ∉ bodyChars r := by
  induction r with
  | nil => simp [bodyChars]
  | cons f rest ih =>
      cases rest with
      | nil =>
          show '\n' ∉ fieldChars f
          exact newline_not_mem_fieldChars f
      | cons g rest2 =>
          intro hc
          simp only [bodyChars] at hc
          rcases List.mem_append.1 hc with h | h
          · exact newline_not_mem_fieldChars f h
          · rcases List.mem_cons.1 h with h | h
            · exact absurd h (by decide)
            · exact ih h

theorem newline_not_mem_stringify (r : JsonRecord) : '\n' ∉ (stringify r).data := by
  unfold stringify
  intro hc
  rcases List.mem_cons.1 hc with h | h
  · exact absurd h (by decide)
  · rcases List.mem_append.1 h with h | h
    · exact newline_not_mem_bodyChars r h
    · exact absurd (List.mem_singleton.1 h) (by decide)

/-! ## Request-level helper lemmas -/

/-- The ledger file a request's handler targets. -/
def requestFile : Request → String
  | Request.success _ _ _ => "bear_import_log.jsonl"
  | Request.bearExists _ => "conversation_check.jsonl"
  | Request.bearMissing _ => "conversation_check.jsonl"
  | Request.successV0 _ _ _ => "conversation_import.jsonl"

/-- The record a request's handler serializes. -/
def requestRecord : Request → JsonRecord
  | Request.success q now iso => successData q now iso
  | Request.bearExists q => existsData q
  | Request.bearMissing q => missingData q
  | Request.successV0 q now iso => part000SuccessData q now iso

theorem handleRequest_ops_eq (r : Request) :
    (handleRequest r).ops
      = [FileOp.append (requestFile r) (stringify (requestRecord r) ++ "\n")] := by
  cases r <;> rfl

theorem handleRequest_response_eq (r : Request) :
    (handleRequest r).response = closeScript := by
  cases r <;> rfl

theorem requestDelta_eq (r : Request) (name : String) :
    requestDelta r name
      = if name = requestFile r then stringify (requestRecord r) ++ "\n" else "" := by
  unfold requestDelta
  rw [handleRequest_ops_eq]
  simp only [List.map, opDelta, List.foldl]
  split <;> simp

theorem applyOps_handleRequest (r : Request) (fs : FileStore) (name : String) :
    applyOps fs (handleRequest r).ops name = fs name ++ requestDelta r name := by
  rw [handleRequest_ops_eq, requestDelta_eq]
  show applyOp fs (FileOp.append (requestFile r) (stringify (requestRecord r) ++ "\n")) name = _
  simp only [applyOp]
  split <;> simp_all

theorem runRequests_snoc (fs : FileStore) (rs : List Request) (r : Request) (name : String) :
    runRequests fs (rs ++ [r]) name = runRequests fs rs name ++ requestDelta r name := by
  unfold runRequests
  rw [List.foldl_append]
  exact applyOps_handleRequest r (List.foldl (fun s x => applyOps s (handleRequest x).ops) fs rs) name

/-! ## Further helper lemmas for the claims -/

theorem step2_absorb (b e : LedgerEntry) : step2 (step2 b e) e = step2 b e := by
  unfold step2
  split_ifs <;> rfl

theorem laterWins_idem (o : Option LedgerEntry) (e : LedgerEntry) :
    laterWins (laterWins o e) e = laterWins o e := by
  cases o with
  | none =>
      show some (step2 e e) = some e
      unfold step2
      rw [if_pos (Nat.le_refl _)]
  | some b =>
      show some (step2 (step2 b e) e) = some (step2 b e)
      rw [step2_absorb]

theorem latestEntrySpec_stable (f1 f2 : List LedgerEntry)
    (h : ∀ t : Nat, f1.filter (fun e => e.timestamp == t)
          = f2.filter (fun e => e.timestamp == t)) :
    latestEntrySpec f1 = latestEntrySpec f2 := by
  have key : ∀ (a b : List LedgerEntry),
      (∀ t : Nat, a.filter (fun e => e.timestamp == t)
        = b.filter (fun e => e.timestamp == t)) →
      maxTimestamp a ≤ maxTimestamp b := by
    intro a b hab
    by_cases ha : a = []
    · subst ha
      exact Nat.zero_le _
    · obtain ⟨e, he, hts⟩ := maxTimestamp_mem a ha
      have h1 : e ∈ a.filter (fun x => x.timestamp == maxTimestamp a) :=
        List.mem_filter.2 ⟨he, by simp [hts]⟩
      rw [hab (maxTimestamp a)] at h1
      have h2 := (List.mem_filter.1 h1).1
      calc maxTimestamp a = e.timestamp := hts.symm
        _ ≤ maxTimestamp b := le_maxTimestamp b e h2
  have hM : maxTimestamp f1 = maxTimestamp f2 :=
    Nat.le_antisymm (key f1 f2 h) (key f2 f1 (fun t => (h t).symm))
  unfold latestEntrySpec
  rw [hM, h (maxTimestamp f2)]

/-! ## Claims about the reconciler and the driver -/

/-- C1: for every list of ledger entries and every conversation
identifier, `computeState` filters the entries to that identifier and
returns `NeverAttempted` if none match; otherwise it returns the
`ImportState` mapped from the kind of the entry with the maximum
timestamp, breaking ties between equal timestamps in favor of the entry
appearing later in read order. -/
theorem computeState_correct (l : List LedgerEntry) (c : String) :
    (l.filter (fun x => x.conversation_id == c) = [] →
      computeState l c = ImportState.NeverAttempted) ∧
    (∀ e, e ∈ l.filter (fun x => x.conversation_id == c) →
      (∀ e2, e2 ∈ l.filter (fun x => x.conversation_id == c) →
        e2.timestamp ≤ e.timestamp) →
      ((l.filter (fun x => x.conversation_id == c)).filter
          (fun x => x.timestamp == e.timestamp)).getLast? = some e →
      computeState l c = stateOfKind e.kind) := by
  constructor
  · intro h
    unfold computeState
    rw [h]
    rfl
  · intro e he hall hlast
    have hM : maxTimestamp (l.filter (fun x => x.conversation_id == c)) = e.timestamp :=
      Nat.le_antisymm (maxTimestamp_le _ _ hall) (le_maxTimestamp _ e he)
    unfold computeState
    rw [latestEntry_eq_spec]
    unfold latestEntrySpec
    rw [hM, hlast]

/-- Witness for C1: the empty ledger reconciles to `NeverAttempted`, and
with two entries for `"abc"` carrying the equal timestamp 5 the entry
appearing later in read order (kind `exists_denied`) decides the state. -/
theorem computeState_correct_witness :
    computeState [] "zzz" = ImportState.NeverAttempted ∧
    computeState [(⟨"abc", EntryKind.note_created, 5⟩ : LedgerEntry),
        ⟨"abc", EntryKind.exists_denied, 5⟩] "abc"
      = ImportState.ImportedButMissing :=
  ⟨(computeState_correct [] "zzz").1 rfl,
   (computeState_correct [(⟨"abc", EntryKind.note_created, 5⟩ : LedgerEntry),
        ⟨"abc", EntryKind.exists_denied, 5⟩] "abc").2
      ⟨"abc", EntryKind.exists_denied, 5⟩ (by decide) (by decide) (by decide)⟩

/-- C2: for every pair of entry sequences that are permutations of each
other and preserve the relative read order of entries with equal
timestamps (the tie-break), `computeState` yields the same
`ImportState`: the result depends only on the entry with the maximum
timestamp, not on stream position. -/
theorem computeState_reorder (l1 l2 : List LedgerEntry) (c : String)
    (hperm : List.Perm l1 l2)
    (hstable : ∀ t : Nat, l1.filter (fun e => e.timestamp == t)
        = l2.filter (fun e => e.timestamp == t)) :
    computeState l1 c = computeState l2 c := by
  have hstable2 : ∀ t : Nat,
      (l1.filter (fun e => e.conversation_id == c)).filter (fun e => e.timestamp == t)
        = (l2.filter (fun e => e.conversation_id == c)).filter (fun e => e.timestamp == t) := by
    intro t
    have h0 := congrArg (List.filter (fun e => e.conversation_id == c)) (hstable t)
    rw [List.filter_filter, List.filter_filter] at h0
    rw [List.filter_filter, List.filter_filter]
    have hbridge : ∀ (m : List LedgerEntry),
        m.filter (fun a => (a.timestamp == t) && (a.conversation_id == c))
          = m.filter (fun a => (a.conversation_id == c) && (a.timestamp == t)) :=
      fun m => List.filter_congr (fun a _ => Bool.and_comm _ _)
    rw [hbridge l1, hbridge l2]
    exact h0
  unfold computeState
  rw [latestEntry_eq_spec, latestEntry_eq_spec,
    latestEntrySpec_stable _ _ hstable2]

/-- Witness for C2: swapping two entries with distinct timestamps (a
permutation that trivially preserves the tie-break) does not change the
computed state. -/
theorem computeState_reorder_witness :
    computeState [(⟨"abc", EntryKind.note_created, 1⟩ : LedgerEntry),
        ⟨"abc", EntryKind.exists_denied, 2⟩] "abc"
      = computeState [(⟨"abc", EntryKind.exists_denied, 2⟩ : LedgerEntry),
        ⟨"abc", EntryKind.note_created, 1⟩] "abc" :=
  computeState_reorder _ _ "abc" (by decide)
    (by
      intro t
      match t with
      | 0 => rfl
      | 1 => rfl
      | 2 => rfl
      | n + 3 => rfl)

/-- C3: when the latest entry for a conversation (maximum timestamp,
later read order winning ties) has kind `exists_denied`, `computeState`
returns `ImportedButMissing` and the driver issues a create request on
its next pass, exactly as for a `NeverAttempted` conversation. -/
theorem denied_reimported (l : List LedgerEntry) (c : String) (e : LedgerEntry)
    (hlatest : latestEntrySpec (l.filter (fun x => x.conversation_id == c)) = some e)
    (hkind : e.kind = EntryKind.exists_denied) :
    computeState l c = ImportState.ImportedButMissing ∧
    driverAction (computeState l c) = DriverAction.issueCreate ∧
    driverAction (computeState l c) = driverAction ImportState.NeverAttempted := by
  have hcs : computeState l c = ImportState.ImportedButMissing := by
    unfold computeState
    rw [latestEntry_eq_spec, hlatest]
    show stateOfKind e.kind = ImportState.ImportedButMissing
    rw [hkind]
    rfl
  refine ⟨hcs, ?_, ?_⟩ <;> rw [hcs] <;> rfl

/-- Witness for C3: a `note_created` entry superseded by an
`exists_denied` entry with a later timestamp. -/
theorem denied_reimported_witness :
    computeState [(⟨"abc", EntryKind.note_created, 1⟩ : LedgerEntry),
        ⟨"abc", EntryKind.exists_denied, 2⟩] "abc" = ImportState.ImportedButMissing ∧
    driverAction (computeState [(⟨"abc", EntryKind.note_created, 1⟩ : LedgerEntry),
        ⟨"abc", EntryKind.exists_denied, 2⟩] "abc") = DriverAction.issueCreate ∧
    driverAction (computeState [(⟨"abc", EntryKind.note_created, 1⟩ : LedgerEntry),
        ⟨"abc", EntryKind.exists_denied, 2⟩] "abc")
      = driverAction ImportState.NeverAttempted :=
  denied_reimported _ "abc" ⟨"abc", EntryKind.exists_denied, 2⟩ (by decide) rfl

/-- C8: appending the same `note_created` entry twice yields the same
computed `ImportState` for its conversation as appending it once; the
duplicate is harmless under the reconciler's latest-wins rule. -/
theorem append_twice_idempotent (l : List LedgerEntry) (e : LedgerEntry)
    (hkind : e.kind = EntryKind.note_created) :
    computeState (l ++ [e, e]) e.conversation_id
      = computeState (l ++ [e]) e.conversation_id := by
  unfold computeState
  rw [List.filter_append, List.filter_append]
  have hpass : (e.conversation_id == e.conversation_id) = true := beq_self_eq_true _
  have h2 : List.filter (fun x => x.conversation_id == e.conversation_id) [e, e] = [e, e] := by
    simp [List.filter, hpass]
  have h1 : List.filter (fun x => x.conversation_id == e.conversation_id) [e] = [e] := by
    simp [List.filter, hpass]
  rw [h1, h2]
  have hdup : ∀ f : List LedgerEntry, latestEntry (f ++ [e, e]) = latestEntry (f ++ [e]) := by
    intro f
    show List.foldl laterWins none (f ++ [e, e]) = List.foldl laterWins none (f ++ [e])
    rw [List.foldl_append, List.foldl_append]
    show laterWins (laterWins (latestEntry f) e) e = laterWins (latestEntry f) e
    exact laterWins_idem (latestEntry f) e
  rw [hdup]

/-- Witness for C8: duplicating a concrete `note_created` entry leaves
the computed state unchanged. -/
theorem append_twice_idempotent_witness :
    computeState ([] ++ [(⟨"abc", EntryKind.note_created, 7⟩ : LedgerEntry),
        ⟨"abc", EntryKind.note_created, 7⟩]) "abc"
      = computeState ([] ++ [(⟨"abc", EntryKind.note_created, 7⟩ : LedgerEntry)]) "abc" :=
  append_twice_idempotent [] ⟨"abc", EntryKind.note_created, 7⟩ rfl

/-! ## Claims about the receiver -/

/-- C4: invoking the success endpoint with all four parameters present
appends exactly one record — classified `note_created` — to the import
log, carrying the application-assigned note id, the title, the
conversation identifier, the character count and the receipt-time
timestamp, and returns the page-closing acknowledgment. -/
theorem success_appends_note_created (nid t cid cc : String) (now : Nat) (iso : String) :
    (serverJsSuccessHandler ⟨some nid, some t, some cid, some cc⟩ now iso).ops
      = [FileOp.append "bear_import_log.jsonl"
          (stringify (successData ⟨some nid, some t, some cid, some cc⟩ now iso) ++ "\n")] ∧
    lookupField (successData ⟨some nid, some t, some cid, some cc⟩ now iso) "bear_id"
      = some (JsonValue.str nid) ∧
    lookupField (successData ⟨some nid, some t, some cid, some cc⟩ now iso) "title"
      = some (JsonValue.str t) ∧
    lookupField (successData ⟨some nid, some t, some cid, some cc⟩ now iso) "conversation_id"
      = some (JsonValue.str cid) ∧
    lookupField (successData ⟨some nid, some t, some cid, some cc⟩ now iso) "note_characters"
      = some (JsonValue.str cc) ∧
    lookupField (successData ⟨some nid, some t, some cid, some cc⟩ now iso)
        "bear_import_timestamp" = some (JsonValue.num now) ∧
    recordKind (successData ⟨some nid, some t, some cid, some cc⟩ now iso)
      = EntryKind.note_created ∧
    (serverJsSuccessHandler ⟨some nid, some t, some cid, some cc⟩ now iso).response
      = closeScript :=
  ⟨rfl, rfl, rfl, rfl, rfl, rfl, rfl, rfl⟩

/-- C5 counterexample: the record the bear-exists endpoint appends for
identifier "n1" has exactly the keys `bear_id` and `exists_in_bear`: it
carries no timestamp field of any name, falsifying the claim that every
appended entry carries a timestamp. -/
theorem bearExists_record_lacks_timestamp :
    (existsData ⟨some "n1", none, none, none⟩).map Prod.fst
      = ["bear_id", "exists_in_bear"] ∧
    lookupField (existsData ⟨some "n1", none, none, none⟩) "timestamp" = none ∧
    lookupField (existsData ⟨some "n1", none, none, none⟩) "bear_import_timestamp" = none ∧
    (serverJsBearExistsHandler ⟨some "n1", none, none, none⟩).ops
      = [FileOp.append "conversation_check.jsonl"
          (stringify (existsData ⟨some "n1", none, none, none⟩) ++ "\n")] :=
  ⟨rfl, rfl, rfl, rfl⟩

/-- C5 (amended): every record a receiver endpoint appends carries the
`bear_id` identifier when the identifier parameter is present, and data
determining a kind in {note_created, exists_confirmed, exists_denied};
the success record also carries the receipt timestamp, but the
exists-confirmed and exists-denied records carry no timestamp field. -/
theorem receiver_record_fields (q : Query) (nid : String)
    (hq : q.identifier = some nid) (now : Nat) (iso : String) :
    (lookupField (successData q now iso) "bear_id" = some (JsonValue.str nid) ∧
      recordKind (successData q now iso) = EntryKind.note_created ∧
      lookupField (successData q now iso) "bear_import_timestamp"
        = some (JsonValue.num now)) ∧
    (lookupField (existsData q) "bear_id" = some (JsonValue.str nid) ∧
      recordKind (existsData q) = EntryKind.exists_confirmed ∧
      (existsData q).map Prod.fst = ["bear_id", "exists_in_bear"]) ∧
    (lookupField (missingData q) "bear_id" = some (JsonValue.str nid) ∧
      recordKind (missingData q) = EntryKind.exists_denied ∧
      (missingData q).map Prod.fst
        = "bear_id" :: (optField "conversation_id" q.conversation_id).map Prod.fst
            ++ ["exists_in_bear"]) := by
  obtain ⟨i, t, cv, ch⟩ := q
  cases hq
  cases t <;> cases cv <;> cases ch <;>
    exact ⟨⟨rfl, rfl, rfl⟩, ⟨rfl, rfl, rfl⟩, ⟨rfl, rfl, rfl⟩⟩

/-- Witness for C5 (amended) at identifier "n1", conversation "abc",
receipt time 5. -/
theorem receiver_record_fields_witness :
    (⟨some "n1", none, some "abc", none⟩ : Query).identifier = some "n1" ∧
    (lookupField (successData ⟨some "n1", none, some "abc", none⟩ 5 "iso") "bear_id"
        = some (JsonValue.str "n1") ∧
      recordKind (successData ⟨some "n1", none, some "abc", none⟩ 5 "iso")
        = EntryKind.note_created ∧
      lookupField (successData ⟨some "n1", none, some "abc", none⟩ 5 "iso")
          "bear_import_timestamp" = some (JsonValue.num 5)) ∧
    (lookupField (existsData ⟨some "n1", none, some "abc", none⟩) "bear_id"
        = some (JsonValue.str "n1") ∧
      recordKind (existsData ⟨some "n1", none, some "abc", none⟩)
        = EntryKind.exists_confirmed ∧
      (existsData ⟨some "n1", none, some "abc", none⟩).map Prod.fst
        = ["bear_id", "exists_in_bear"]) ∧
    (lookupField (missingData ⟨some "n1", none, some "abc", none⟩) "bear_id"
        = some (JsonValue.str "n1") ∧
      recordKind (missingData ⟨some "n1", none, some "abc", none⟩)
        = EntryKind.exists_denied ∧
      (missingData ⟨some "n1", none, some "abc", none⟩).map Prod.fst
        = ["bear_id", "conversation_id", "exists_in_bear"]) :=
  ⟨rfl, receiver_record_fields ⟨some "n1", none, some "abc", none⟩ "n1" rfl 5 "iso"⟩

/-- C6: a success callback whose conversation identifier is absent or
empty still appends exactly one ledger record and returns the terminal
page-closing acknowledgment (the handler is total, so no fatal error),
and any subsequent request appends exactly its own payload regardless of
the requests, malformed or not, that preceded it. -/
theorem success_malformed_harmless (q : Query) (now : Nat) (iso : String)
    (hq : q.conversation_id = none ∨ q.conversation_id = some "")
    (fs : FileStore) (rs : List Request) (r : Request) (name : String) :
    (serverJsSuccessHandler q now iso).ops
      = [FileOp.append "bear_import_log.jsonl"
          (stringify (successData q now iso) ++ "\n")] ∧
    (serverJsSuccessHandler q now iso).response = closeScript ∧
    runRequests fs (rs ++ [r]) name = runRequests fs rs name ++ requestDelta r name :=
  ⟨rfl, rfl, runRequests_snoc fs rs r name⟩

/-- Witness for C6: a malformed success callback (absent
`conversation_id`) followed by a well-formed one for conversation
"abc". -/
theorem success_malformed_harmless_witness :
    ((⟨some "n1", some "T", none, some "10"⟩ : Query).conversation_id = none ∨
      (⟨some "n1", some "T", none, some "10"⟩ : Query).conversation_id = some "") ∧
    ((serverJsSuccessHandler ⟨some "n1", some "T", none, some "10"⟩ 5 "d").ops
      = [FileOp.append "bear_import_log.jsonl"
          (stringify (successData ⟨some "n1", some "T", none, some "10"⟩ 5 "d") ++ "\n")] ∧
    (serverJsSuccessHandler ⟨some "n1", some "T", none, some "10"⟩ 5 "d").response
      = closeScript ∧
    runRequests (fun _ => "")
        ([Request.success ⟨some "n1", some "T", none, some "10"⟩ 5 "d"]
          ++ [Request.success ⟨some "n2", some "U", some "abc", some "3"⟩ 6 "d2"])
        "bear_import_log.jsonl"
      = runRequests (fun _ => "")
          [Request.success ⟨some "n1", some "T", none, some "10"⟩ 5 "d"]
          "bear_import_log.jsonl"
        ++ requestDelta (Request.success ⟨some "n2", some "U", some "abc", some "3"⟩ 6 "d2")
            "bear_import_log.jsonl") :=
  ⟨Or.inl rfl,
   success_malformed_harmless ⟨some "n1", some "T", none, some "10"⟩ 5 "d" (Or.inl rfl)
     (fun _ => "") [Request.success ⟨some "n1", some "T", none, some "10"⟩ 5 "d"]
     (Request.success ⟨some "n2", some "U", some "abc", some "3"⟩ 6 "d2")
     "bear_import_log.jsonl"⟩

/-- C7: every receiver endpoint performs exactly one append as its only
file effect; applying it only extends the targeted file and leaves every
other file unchanged, and — the handlers being functions of the request
alone, with no state parameter — the payload appended for a request is
the same whatever requests preceded it. -/
theorem receiver_exactly_one_append (r : Request) :
    ∃ name payload,
      (handleRequest r).ops = [FileOp.append name payload] ∧
      (∀ fs g, applyOps fs (handleRequest r).ops g
          = if g = name then fs g ++ payload else fs g) ∧
      (∀ fs rs g, runRequests fs (rs ++ [r]) g
          = runRequests fs rs g ++ requestDelta r g) := by
  refine ⟨requestFile r, stringify (requestRecord r) ++ "\n", handleRequest_ops_eq r, ?_, ?_⟩
  · intro fs g
    rw [handleRequest_ops_eq]
    rfl
  · intro fs rs g
    exact runRequests_snoc fs rs r g

/-- C9: every write a receiver endpoint performs is an append of exactly
one serialized JSON object terminated by one newline (the serialized
object itself contains no newline character), and applying the handler's
operations never truncates, rewrites or deletes existing content: the
prior contents of every file persist as a prefix. -/
theorem receiver_append_only (r : Request) :
    ∃ name rec,
      (handleRequest r).ops = [FileOp.append name (stringify rec ++ "\n")] ∧
      ('\n' ∉ (stringify rec).data) ∧
      (∀ fs g, ∃ s, applyOps fs (handleRequest r).ops g = fs g ++ s) := by
  refine ⟨requestFile r, requestRecord r, handleRequest_ops_eq r,
    newline_not_mem_stringify _, ?_⟩
  intro fs g
  exact ⟨requestDelta r g, applyOps_handleRequest r fs g⟩

/-- C10 counterexample: for the same success request at the same receipt
time, the two variants build the same serialized record but persist it
to different ledger files, so they are not equivalent as the claim
states. -/
theorem success_variants_differ :
    (serverJsSuccessHandler ⟨some "n1", some "T", some "abc", some "10"⟩ 5 "d").ops
      = [FileOp.append "bear_import_log.jsonl"
          (stringify (successData ⟨some "n1", some "T", some "abc", some "10"⟩ 5 "d") ++ "\n")] ∧
    (part000SuccessHandler ⟨some "n1", some "T", some "abc", some "10"⟩ 5 "d").ops
      = [FileOp.append "conversation_import.jsonl"
          (stringify (part000SuccessData ⟨some "n1", some "T", some "abc", some "10"⟩ 5 "d")
            ++ "\n")] ∧
    stringify (part000SuccessData ⟨some "n1", some "T", some "abc", some "10"⟩ 5 "d")
      = stringify (successData ⟨some "n1", some "T", some "abc", some "10"⟩ 5 "d") ∧
    serverJsSuccessHandler ⟨some "n1", some "T", some "abc", some "10"⟩ 5 "d"
      ≠ part000SuccessHandler ⟨some "n1", some "T", some "abc", some "10"⟩ 5 "d" :=
  ⟨rfl, rfl, rfl, by decide⟩

/-- C10 (amended): for every success request received at the same time
with identical query parameters, the two variants construct the same
serialized record and the same response, but persist it to different
ledger files: src/server.js appends to `bear_import_log.jsonl`,
src/unnamed/part_000 to `conversation_import.jsonl`. -/
theorem success_variants_same_record (q : Query) (now : Nat) (iso : String) :
    stringify (part000SuccessData q now iso) = stringify (successData q now iso) ∧
    (part000SuccessHandler q now iso).response = (serverJsSuccessHandler q now iso).response ∧
    (serverJsSuccessHandler q now iso).ops
      = [FileOp.append "bear_import_log.jsonl"
          (stringify (successData q now iso) ++ "\n")] ∧
    (part000SuccessHandler q now iso).ops
      = [FileOp.append "conversation_import.jsonl"
          (stringify (successData q now iso) ++ "\n")] ∧
    ("bear_import_log.jsonl" : String) ≠ "conversation_import.jsonl" :=
  ⟨rfl, rfl, rfl, rfl, by decide⟩
